import Mathlib

/-!
Verification of the Hydra logging configuration and delivery subsystem.

The definitions below are a shallow embedding of the `logger` package:
the `Config` data model, the `Setup` configuration-resolution flow
(viper defaults, config-file search with ancestor fallback, environment
overrides, formatter/level selection, conditional Elasticsearch hook
installation) and the `ESHook.Fire` delivery routine (payload
construction, bounded retry loop with fixed backoff and per-record
timeout, best-effort error swallowing).

External collaborators (viper's file reader, the process environment,
`elasticsearch.NewClient`, and the network transport) are modelled as
oracle inputs: functions and flags recording what each external call
would return.  Writes to the error stream and outbound index requests
are modelled as explicit event traces.
-/

namespace Hydra

/-- A JSON-serializable (or not) field value, as stored in a log entry's
field map (`logrus.Fields`, i.e. `map[string]interface{}`).  The
`unserializable` constructor stands for Go values that
`json.Marshal` rejects (channels, functions, ...). -/
inductive JValue where
  | str (s : String)
  | num (n : Int)
  | boolean (b : Bool)
  | null
  | unserializable
  deriving DecidableEq, Repr

/-- Whether `json.Marshal` accepts this value. -/
def JValue.marshalable : JValue → Bool
  | .unserializable => false
  | _ => true

/-- A field map: association list from key to value (Go `map[string]interface{}`,
assumed to have no duplicate keys, as Go maps cannot). -/
abbrev Fields := List (String × JValue)

/-- Go map update `m[k] = v`: replace the binding if the key is present,
otherwise add it. -/
def setKey : Fields → String → JValue → Fields
  | [], k, v => [(k, v)]
  | (k0, v0) :: rest, k, v =>
    if k0 = k then (k, v) :: rest else (k0, v0) :: setKey rest k v

/-- Go map read `m[k]`. -/
def getKey : Fields → String → Option JValue
  | [], _ => none
  | (k0, v0) :: rest, k => if k0 = k then some v0 else getKey rest k

/-- The copy loop `for k, v := range entry.Data { data[k] = v }` into a
fresh map. -/
def copyFields (m : Fields) : Fields :=
  m.foldl (fun acc kv => setKey acc kv.1 kv.2) []

/-- A wall-clock instant, with the components that the RFC 3339 layout
prints. -/
structure GoTime where
  year : Nat
  month : Nat
  day : Nat
  hour : Nat
  minute : Nat
  second : Nat
  tzOffsetMinutes : Int
  deriving DecidableEq, Repr

/-- Zero-pad to two digits. -/
def pad2 (n : Nat) : String :=
  if n < 10 then "0" ++ toString n else toString n

/-- Zero-pad to four digits. -/
def pad4 (n : Nat) : String :=
  if n < 10 then "000" ++ toString n
  else if n < 100 then "00" ++ toString n
  else if n < 1000 then "0" ++ toString n
  else toString n

/-- The `Z07:00` zone part of the RFC 3339 layout. -/
def tzSuffix (off : Int) : String :=
  if off = 0 then "Z"
  else if off > 0 then "+" ++ pad2 (off.toNat / 60) ++ ":" ++ pad2 (off.toNat % 60)
  else "-" ++ pad2 ((-off).toNat / 60) ++ ":" ++ pad2 ((-off).toNat % 60)

/-- `t.Format(time.RFC3339)`: layout `2006-01-02T15:04:05Z07:00`. -/
def formatRFC3339 (t : GoTime) : String :=
  pad4 t.year ++ "-" ++ pad2 t.month ++ "-" ++ pad2 t.day ++ "T" ++
    pad2 t.hour ++ ":" ++ pad2 t.minute ++ ":" ++ pad2 t.second ++
    tzSuffix t.tzOffsetMinutes

/-- The logrus severity levels. -/
inductive Level where
  | panicLevel
  | fatalLevel
  | errorLevel
  | warnLevel
  | infoLevel
  | debugLevel
  | traceLevel
  deriving DecidableEq, Repr

/-- `logrus.Level.String()` (via `MarshalText`): note `WarnLevel`
prints as `"warning"`. -/
def Level.string : Level → String
  | .panicLevel => "panic"
  | .fatalLevel => "fatal"
  | .errorLevel => "error"
  | .warnLevel => "warning"
  | .infoLevel => "info"
  | .debugLevel => "debug"
  | .traceLevel => "trace"

/-- ASCII lowercasing of one character. -/
def lowerChar (c : Char) : Char :=
  if c.isUpper then Char.ofNat (c.toNat + 32) else c

/-- `strings.ToLower` restricted to the ASCII names that level parsing
compares against. -/
def toLowerAscii (s : String) : String :=
  String.mk (s.data.map lowerChar)

/-- `logrus.ParseLevel`: case-insensitive match of the level name;
`none` models the error return for unrecognized input. -/
def ParseLevel (lvl : String) : Option Level :=
  match toLowerAscii lvl with
  | "panic" => some .panicLevel
  | "fatal" => some .fatalLevel
  | "error" => some .errorLevel
  | "warn" => some .warnLevel
  | "warning" => some .warnLevel
  | "info" => some .infoLevel
  | "debug" => some .debugLevel
  | "trace" => some .traceLevel
  | _ => none

/-- A `logrus.Entry` as seen by a hook: contextual fields, message,
severity and timestamp. -/
structure Entry where
  data : Fields
  message : String
  level : Level
  time : GoTime
  deriving DecidableEq, Repr

/-- The `ESHook` struct: target index and configured retry count.  The
`*elasticsearch.Client` handle is abstracted away; the behaviour of the
transport it drives is an explicit input to `Fire`. -/
structure ESHook where
  index : String
  retries : Int
  deriving DecidableEq, Repr

/-- `ESHook.Levels()`: `logrus.AllLevels`. -/
def ESHook.allLevels (_ : ESHook) : List Level :=
  [.panicLevel, .fatalLevel, .errorLevel, .warnLevel, .infoLevel, .debugLevel, .traceLevel]

/-- The payload map built by `Fire`: a copy of `entry.Data`, then the
keys `@timestamp`, `message`, `level`, `timestamp` set in source
order. -/
def buildPayload (entry : Entry) : Fields :=
  let data := copyFields entry.data
  let data := setKey data "@timestamp" (.str (formatRFC3339 entry.time))
  let data := setKey data "message" (.str entry.message)
  let data := setKey data "level" (.str entry.level.string)
  setKey data "timestamp" (.str (formatRFC3339 entry.time))

/-- Whether `json.Marshal(data)` succeeds: every value is serializable. -/
def marshalOk (m : Fields) : Bool :=
  m.all fun kv => kv.2.marshalable

/-- What one call to `h.Client.Index` observes: either a
transport-level error, or an HTTP response with a status code and
body. -/
inductive AttemptOutcome where
  | transportError
  | response (status : Nat) (body : String)
  deriving DecidableEq, Repr

/-- The sink's behaviour across the attempt sequence: the outcome of
attempt `i`, and whether the 5-second context deadline has elapsed when
`ctx.Err()` is consulted after a failed attempt `i`. -/
structure SinkBehavior where
  outcome : Nat → AttemptOutcome
  timedOut : Nat → Bool

/-- Observable actions of one `Fire` call: outbound index requests
(with `refresh=true`), stderr diagnostics, and backoff sleeps. -/
inductive FireEvent where
  | indexRequest (attempt : Nat) (index : String) (payload : Fields)
  | diagMarshalFailed
  | diagTransportError (attempt : Nat) (total : Nat)
  | diagStatus (status : Nat) (attempt : Nat) (total : Nat) (body : String)
  | sleep (ms : Nat)
  deriving DecidableEq, Repr

/-- The retry loop `for i := 0; i < attempts; i++`, with `fuel` the
remaining iterations and `i` the current index.  A transport error
prints a diagnostic, then stops if the context deadline elapsed,
otherwise sleeps 100 ms and continues.  A response reads the body,
warns if the status is outside 200–299, and breaks. -/
def fireLoop (b : SinkBehavior) (index : String) (payload : Fields) (total : Nat) :
    Nat → Nat → List FireEvent
  | 0, _ => []
  | fuel + 1, i =>
    match b.outcome i with
    | .transportError =>
      .indexRequest i index payload :: .diagTransportError i total ::
        (if b.timedOut i then []
         else .sleep 100 :: fireLoop b index payload total fuel (i + 1))
    | .response st body =>
      .indexRequest i index payload ::
        (if st < 200 ∨ 300 ≤ st then [.diagStatus st i total body] else [])

/-- `attempts := 1; if h.Retries > 0 { attempts = h.Retries }`. -/
def attemptsOf (retries : Int) : Nat :=
  if retries > 0 then retries.toNat else 1

/-- Result of one `Fire` call: the error returned to logrus, and the
trace of observable actions. -/
structure FireResult where
  err : Option String
  events : List FireEvent
  deriving DecidableEq, Repr

/-- `ESHook.Fire`: build the payload; on marshal failure write a
diagnostic and return nil; otherwise run the bounded retry loop against
the sink and return nil. -/
def ESHook.Fire (h : ESHook) (entry : Entry) (b : SinkBehavior) : FireResult :=
  let payload := buildPayload entry
  if marshalOk payload = false then
    { err := none, events := [.diagMarshalFailed] }
  else
    let index := if h.index = "" then "logs" else h.index
    let attempts := attemptsOf h.retries
    { err := none, events := fireLoop b index payload attempts attempts 0 }

/-- Is this event an outbound index request? -/
def FireEvent.isRequest : FireEvent → Bool
  | .indexRequest .. => true
  | _ => false

/-- Is this event a backoff sleep? -/
def FireEvent.isSleep : FireEvent → Bool
  | .sleep _ => true
  | _ => false

/-- Number of delivery attempts (outbound requests) in a trace. -/
def requestCount (evs : List FireEvent) : Nat :=
  (evs.filter FireEvent.isRequest).length

/-- Number of backoff sleeps in a trace. -/
def sleepCount (evs : List FireEvent) : Nat :=
  (evs.filter FireEvent.isSleep).length

/-- Claim C1: for every log entry and every sink behaviour (marshal
failure, persistent transport errors, non-2xx responses, timeout), the
hook's `Fire` returns no error to the logging framework; failures
surface only as diagnostic events in the trace. -/
theorem Fire_returns_no_error (h : ESHook) (entry : Entry) (b : SinkBehavior) :
    (h.Fire entry b).err = none := by
  unfold ESHook.Fire
  by_cases hm : marshalOk (buildPayload entry) = false <;> simp [hm]

theorem Fire_events_eq (h : ESHook) (entry : Entry) (b : SinkBehavior)
    (hm : marshalOk (buildPayload entry) = true) :
    (h.Fire entry b).events =
      fireLoop b (if h.index = "" then "logs" else h.index) (buildPayload entry)
        (attemptsOf h.retries) (attemptsOf h.retries) 0 := by
  unfold ESHook.Fire
  simp [hm]

theorem attemptsOf_eq_max (r : Int) : attemptsOf r = (max r 1).toNat := by
  unfold attemptsOf
  split <;> omega

theorem fireLoop_allFail_eq (b : SinkBehavior) (idx : String) (p : Fields) (total : Nat)
    (hout : ∀ i, b.outcome i = .transportError) (ht : ∀ i, b.timedOut i = false) :
    ∀ fuel start, fireLoop b idx p total fuel start =
      (List.range' start fuel).flatMap fun i =>
        [.indexRequest i idx p, .diagTransportError i total, .sleep 100] := by
  intro fuel
  induction fuel with
  | zero => intro start; simp [fireLoop]
  | succ n ih =>
    intro start
    rw [List.range'_succ, List.flatMap_cons]
    simp [fireLoop, hout start, ht start, ih (start + 1)]

theorem requestCount_fireLoop_allFail (b : SinkBehavior) (idx : String) (p : Fields)
    (total : Nat)
    (hout : ∀ i, b.outcome i = .transportError) (ht : ∀ i, b.timedOut i = false) :
    ∀ fuel start, requestCount (fireLoop b idx p total fuel start) = fuel := by
  intro fuel
  induction fuel with
  | zero => intro start; simp [fireLoop, requestCount]
  | succ n ih =>
    intro start
    simp [fireLoop, hout start, ht start, requestCount, FireEvent.isRequest,
      FireEvent.isSleep, List.filter]
    have := ih (start + 1)
    simp [requestCount] at this
    omega

theorem sleepCount_fireLoop_allFail (b : SinkBehavior) (idx : String) (p : Fields)
    (total : Nat)
    (hout : ∀ i, b.outcome i = .transportError) (ht : ∀ i, b.timedOut i = false) :
    ∀ fuel start, sleepCount (fireLoop b idx p total fuel start) = fuel := by
  intro fuel
  induction fuel with
  | zero => intro start; simp [fireLoop, sleepCount]
  | succ n ih =>
    intro start
    simp [fireLoop, hout start, ht start, sleepCount, FireEvent.isRequest,
      FireEvent.isSleep, List.filter]
    have := ih (start + 1)
    simp [sleepCount] at this
    omega

theorem requestCount_fireLoop_timeout (b : SinkBehavior) (idx : String) (p : Fields)
    (total : Nat)
    (hout : ∀ i, b.outcome i = .transportError)
    (k : Nat) (hk : b.timedOut k = true) (hlt : ∀ j, j < k → b.timedOut j = false) :
    ∀ fuel start, start ≤ k →
      requestCount (fireLoop b idx p total fuel start) = min (k + 1 - start) fuel := by
  intro fuel
  induction fuel with
  | zero => intro start _; simp [fireLoop, requestCount]
  | succ n ih =>
    intro start hstart
    rcases Nat.eq_or_lt_of_le hstart with heq | hlt'
    · subst heq
      simp [fireLoop, hout start, hk, requestCount, FireEvent.isRequest, List.filter]
    · have hts : b.timedOut start = false := hlt start hlt'
      have hrec := ih (start + 1) (by omega)
      simp [fireLoop, hout start, hts, requestCount, FireEvent.isRequest, List.filter]
        at hrec ⊢
      omega

theorem fireLoop_response_stops (b : SinkBehavior) (idx : String) (p : Fields) (total : Nat)
    (i st : Nat) (body : String)
    (hresp : b.outcome i = .response st body)
    (hbefore : ∀ j, j < i → b.outcome j = .transportError ∧ b.timedOut j = false) :
    ∀ fuel start, start ≤ i → i < start + fuel →
      requestCount (fireLoop b idx p total fuel start) = i + 1 - start ∧
      ((st < 200 ∨ 300 ≤ st) →
        FireEvent.diagStatus st i total body ∈ fireLoop b idx p total fuel start) := by
  intro fuel
  induction fuel with
  | zero => intro start h1 h2; omega
  | succ n ih =>
    intro start h1 h2
    rcases Nat.eq_or_lt_of_le h1 with heq | hlt'
    · subst heq
      constructor
      · simp only [fireLoop, hresp, requestCount]
        split <;> simp [FireEvent.isRequest, List.filter]
      · intro hst
        simp [fireLoop, hresp, hst]
    · obtain ⟨ho, htf⟩ := hbefore start hlt'
      have hrec := ih (start + 1) (by omega) (by omega)
      constructor
      · have := hrec.1
        simp [fireLoop, ho, htf, requestCount, FireEvent.isRequest, List.filter] at this ⊢
        omega
      · intro hst
        have := hrec.2 hst
        simp [fireLoop, ho, htf]
        tauto

/-- Claim C2: for a sink failing every attempt with a transport error
and a timeout that never elapses, `Fire` makes exactly `max(retries,1)`
attempts (so `retries ≤ 0` still gives one attempt), each attempt block
ending with a 100 ms backoff sleep before the next attempt; and if the
5-second deadline has elapsed when checked after failed attempt `k`,
the remaining attempts are abandoned, for a total of `k+1` attempts. -/
theorem retry_attempt_count (h : ESHook) (entry : Entry) (b : SinkBehavior)
    (hm : marshalOk (buildPayload entry) = true)
    (hout : ∀ i, b.outcome i = .transportError) :
    ((∀ i, b.timedOut i = false) →
      requestCount (h.Fire entry b).events = (max h.retries 1).toNat ∧
      (h.Fire entry b).events =
        (List.range (max h.retries 1).toNat).flatMap fun i =>
          [FireEvent.indexRequest i (if h.index = "" then "logs" else h.index)
             (buildPayload entry),
           FireEvent.diagTransportError i (max h.retries 1).toNat,
           FireEvent.sleep 100]) ∧
    (∀ k, k < (max h.retries 1).toNat →
      (∀ j, j < k → b.timedOut j = false) → b.timedOut k = true →
      requestCount (h.Fire entry b).events = k + 1) := by
  have hev := Fire_events_eq h entry b hm
  rw [attemptsOf_eq_max] at hev
  constructor
  · intro ht
    constructor
    · rw [hev, requestCount_fireLoop_allFail b _ _ _ hout ht]
    · rw [hev, fireLoop_allFail_eq b _ _ _ hout ht, List.range_eq_range']
  · intro k hk hltk hkt
    rw [hev, requestCount_fireLoop_timeout b _ _ _ hout k hkt hltk _ 0 (Nat.zero_le k)]
    omega

def sampleTime : GoTime :=
  { year := 2026, month := 1, day := 2, hour := 3, minute := 4, second := 5,
    tzOffsetMinutes := 0 }

def sampleEntry : Entry :=
  { data := [("service", .str "hydra")], message := "hello", level := .infoLevel,
    time := sampleTime }

def alwaysFailSink : SinkBehavior :=
  { outcome := fun _ => .transportError, timedOut := fun _ => false }

def retry3Hook : ESHook := { index := "logs", retries := 3 }

/-- Witness for C2: with `retries = 3` and a sink failing every attempt,
exactly 3 attempts occur. -/
theorem retry_attempt_count_witness :
    requestCount (retry3Hook.Fire sampleEntry alwaysFailSink).events = 3 := by
  have hmain := (retry_attempt_count retry3Hook sampleEntry alwaysFailSink (by decide)
    (fun _ => rfl)).1 (fun _ => rfl)
  exact hmain.1.trans (by decide)

/-- Claim C3: if a delivery attempt receives an HTTP response with a
status outside 200–299, no further attempt is made regardless of
remaining retries, and a warning carrying the status code and the
response body is written to the error stream. -/
theorem non2xx_stops_and_warns (h : ESHook) (entry : Entry) (b : SinkBehavior)
    (hm : marshalOk (buildPayload entry) = true)
    (i st : Nat) (body : String)
    (hresp : b.outcome i = .response st body)
    (hst : st < 200 ∨ 300 ≤ st)
    (hbefore : ∀ j, j < i → b.outcome j = .transportError ∧ b.timedOut j = false)
    (hi : i < attemptsOf h.retries) :
    requestCount (h.Fire entry b).events = i + 1 ∧
    FireEvent.diagStatus st i (attemptsOf h.retries) body ∈ (h.Fire entry b).events := by
  have hev := Fire_events_eq h entry b hm
  have hmain := fireLoop_response_stops b (if h.index = "" then "logs" else h.index)
    (buildPayload entry) (attemptsOf h.retries) i st body hresp hbefore
    (attemptsOf h.retries) 0 (Nat.zero_le i) (by omega)
  rw [hev]
  exact ⟨hmain.1.trans (by omega), hmain.2 hst⟩

def http500Sink : SinkBehavior :=
  { outcome := fun _ => .response 500 "oops", timedOut := fun _ => false }

def retry5Hook : ESHook := { index := "logs", retries := 5 }

/-- Witness for C3: HTTP 500 on the first attempt with `retries = 5`:
one attempt only, and the status warning is emitted. -/
theorem non2xx_stops_and_warns_witness :
    requestCount (retry5Hook.Fire sampleEntry http500Sink).events = 0 + 1 ∧
    FireEvent.diagStatus 500 0 (attemptsOf retry5Hook.retries) "oops" ∈
      (retry5Hook.Fire sampleEntry http500Sink).events :=
  non2xx_stops_and_warns retry5Hook sampleEntry http500Sink (by decide) 0 500 "oops" rfl
    (by omega) (fun j hj => absurd hj (Nat.not_lt_zero j)) (by decide)

/-- Claim C10: the 100 ms backoff sleep runs after every failed
transport attempt, including the final one: a fully failing delivery
with no timeout performs exactly as many sleeps as attempts (n, not
n−1). -/
theorem backoff_after_every_failure (h : ESHook) (entry : Entry) (b : SinkBehavior)
    (hm : marshalOk (buildPayload entry) = true)
    (hout : ∀ i, b.outcome i = .transportError)
    (ht : ∀ i, b.timedOut i = false) :
    sleepCount (h.Fire entry b).events = attemptsOf h.retries ∧
    sleepCount (h.Fire entry b).events = requestCount (h.Fire entry b).events := by
  have hev := Fire_events_eq h entry b hm
  rw [hev, sleepCount_fireLoop_allFail b _ _ _ hout ht,
    requestCount_fireLoop_allFail b _ _ _ hout ht]
  exact ⟨rfl, rfl⟩

def retry2Hook : ESHook := { index := "app-logs", retries := 2 }

/-- Witness for C10: with `retries = 2` and every attempt failing, two
sleeps occur — one after each attempt. -/
theorem backoff_after_every_failure_witness :
    sleepCount (retry2Hook.Fire sampleEntry alwaysFailSink).events =
      attemptsOf retry2Hook.retries ∧
    sleepCount (retry2Hook.Fire sampleEntry alwaysFailSink).events =
      requestCount (retry2Hook.Fire sampleEntry alwaysFailSink).events :=
  backoff_after_every_failure retry2Hook sampleEntry alwaysFailSink (by decide)
    (fun _ => rfl) (fun _ => rfl)

theorem getKey_setKey_self (m : Fields) (k : String) (v : JValue) :
    getKey (setKey m k v) k = some v := by
  induction m with
  | nil => simp [setKey, getKey]
  | cons kv rest ih =>
    by_cases hk : kv.1 = k
    · simp [setKey, hk, getKey]
    · simp [setKey, hk, getKey, ih]

theorem getKey_setKey_ne (m : Fields) (k k' : String) (v : JValue) (hne : k' ≠ k) :
    getKey (setKey m k v) k' = getKey m k' := by
  induction m with
  | nil => simp [setKey, getKey, Ne.symm hne]
  | cons kv rest ih =>
    by_cases hk : kv.1 = k
    · simp [setKey, hk, getKey, Ne.symm hne]
    · by_cases hk' : kv.1 = k'
      · simp [setKey, hk, getKey, hk', hne]
      · simp [setKey, hk, getKey, hk', ih]

theorem getKey_eq_none_of_not_mem (m : Fields) (k : String)
    (h : k ∉ m.map Prod.fst) :
    getKey m k = none := by
  induction m with
  | nil => rfl
  | cons kv rest ih =>
    rw [List.map_cons, List.mem_cons] at h
    push_neg at h
    have hk' : ¬ kv.1 = k := fun he => h.1 he.symm
    simp [getKey, hk', ih h.2]

theorem getKey_foldl_setKey (m : Fields) :
    ∀ acc : Fields, (m.map Prod.fst).Nodup → ∀ k,
      getKey (m.foldl (fun acc kv => setKey acc kv.1 kv.2) acc) k =
        match getKey m k with
        | some v => some v
        | none => getKey acc k := by
  induction m with
  | nil => intro acc _ k; simp [getKey]
  | cons kv rest ih =>
    intro acc hnd k
    simp only [List.map_cons, List.nodup_cons] at hnd
    rw [List.foldl_cons, ih (setKey acc kv.1 kv.2) hnd.2 k]
    by_cases hk : k = kv.1
    · have h1 : getKey rest kv.1 = none := getKey_eq_none_of_not_mem rest kv.1 hnd.1
      have h2 : getKey (setKey acc kv.1 kv.2) kv.1 = some kv.2 :=
        getKey_setKey_self acc kv.1 kv.2
      simp [getKey, hk, h1, h2]
    · have h2 := getKey_setKey_ne acc kv.1 k kv.2 hk
      have hk' : ¬ kv.1 = k := fun he => hk he.symm
      simp only [getKey, hk', if_false]
      cases getKey rest k <;> simp [h2]

theorem getKey_copyFields (m : Fields) (hnd : (m.map Prod.fst).Nodup) (k : String) :
    getKey (copyFields m) k = getKey m k := by
  unfold copyFields
  rw [getKey_foldl_setKey m [] hnd k]
  cases getKey m k <;> rfl

theorem fireLoop_request_payload (b : SinkBehavior) (idx : String) (p : Fields)
    (total : Nat) :
    ∀ fuel start j idx' q,
      FireEvent.indexRequest j idx' q ∈ fireLoop b idx p total fuel start →
      q = p ∧ idx' = idx := by
  intro fuel
  induction fuel with
  | zero => intro start j idx' q h; simp [fireLoop] at h
  | succ n ih =>
    intro start j idx' q h
    cases hscr : b.outcome start with
    | transportError =>
      cases htd : b.timedOut start with
      | true =>
        simp [fireLoop, hscr, htd] at h
        exact ⟨h.2.2, h.2.1⟩
      | false =>
        simp [fireLoop, hscr, htd] at h
        rcases h with ⟨_, hidx, hq⟩ | hmem
        · exact ⟨hq, hidx⟩
        · exact ih (start + 1) j idx' q hmem
    | response st body =>
      by_cases hst : st < 200 ∨ 300 ≤ st
      · simp [fireLoop, hscr, hst] at h
        exact ⟨h.2.2, h.2.1⟩
      · simp [fireLoop, hscr, hst] at h
        exact ⟨h.2.2, h.2.1⟩

/-- Claim C6: the payload built for every delivered entry contains the
keys `message`, `level`, `@timestamp` and `timestamp` with the entry's
message, severity name and RFC 3339 time; every other key of the
caller's field map is present with its original value (the map is
copied, then augmented); and every outbound request of a `Fire` call
carries exactly this payload. -/
theorem payload_fields (entry : Entry)
    (hnd : (entry.data.map Prod.fst).Nodup) :
    getKey (buildPayload entry) "message" = some (.str entry.message) ∧
    getKey (buildPayload entry) "level" = some (.str entry.level.string) ∧
    getKey (buildPayload entry) "@timestamp" = some (.str (formatRFC3339 entry.time)) ∧
    getKey (buildPayload entry) "timestamp" = some (.str (formatRFC3339 entry.time)) ∧
    (∀ k, k ≠ "message" → k ≠ "level" → k ≠ "@timestamp" → k ≠ "timestamp" →
      getKey (buildPayload entry) k = getKey entry.data k) ∧
    (∀ (h : ESHook) (b : SinkBehavior) (i : Nat) (idx : String) (p : Fields),
      FireEvent.indexRequest i idx p ∈ (h.Fire entry b).events → p = buildPayload entry) := by
  unfold buildPayload
  refine ⟨?_, ?_, ?_, ?_, ?_, ?_⟩
  · rw [getKey_setKey_ne _ _ _ _ (by decide), getKey_setKey_ne _ _ _ _ (by decide),
      getKey_setKey_self]
  · rw [getKey_setKey_ne _ _ _ _ (by decide), getKey_setKey_self]
  · rw [getKey_setKey_ne _ _ _ _ (by decide), getKey_setKey_ne _ _ _ _ (by decide),
      getKey_setKey_ne _ _ _ _ (by decide), getKey_setKey_self]
  · rw [getKey_setKey_self]
  · intro k h1 h2 h3 h4
    rw [getKey_setKey_ne _ _ _ _ h4, getKey_setKey_ne _ _ _ _ h2,
      getKey_setKey_ne _ _ _ _ h1, getKey_setKey_ne _ _ _ _ h3,
      getKey_copyFields entry.data hnd k]
  · intro h b i idx p hmem
    unfold ESHook.Fire at hmem
    by_cases hm : marshalOk (buildPayload entry) = false
    · simp [hm] at hmem
    · simp [hm] at hmem
      exact (fireLoop_request_payload b _ _ _ _ _ _ _ _ hmem).1

/-- Witness for C6 at a concrete entry with one caller field. -/
theorem payload_fields_witness :
    getKey (buildPayload sampleEntry) "message" = some (.str sampleEntry.message) ∧
    getKey (buildPayload sampleEntry) "level" = some (.str sampleEntry.level.string) ∧
    getKey (buildPayload sampleEntry) "@timestamp" =
      some (.str (formatRFC3339 sampleEntry.time)) ∧
    getKey (buildPayload sampleEntry) "timestamp" =
      some (.str (formatRFC3339 sampleEntry.time)) ∧
    (∀ k, k ≠ "message" → k ≠ "level" → k ≠ "@timestamp" → k ≠ "timestamp" →
      getKey (buildPayload sampleEntry) k = getKey sampleEntry.data k) ∧
    (∀ (h : ESHook) (b : SinkBehavior) (i : Nat) (idx : String) (p : Fields),
      FireEvent.indexRequest i idx p ∈ (h.Fire sampleEntry b).events →
      p = buildPayload sampleEntry) :=
  payload_fields sampleEntry (by decide)

/-- The nested `elasticsearch` section of `Config`. -/
structure ElasticsearchSettings where
  enabled : Bool
  url : String
  index : String
  username : String
  password : String
  insecureSkipVerify : Bool
  retries : Int
  queueSize : Int
  batchSize : Int
  flushInterval : String
  deriving DecidableEq, Repr

/-- The `Config` struct the viper state is decoded into. -/
structure Config where
  level : String
  consoleFormat : String
  elasticsearch : ElasticsearchSettings
  deriving DecidableEq, Repr

/-- The `v.SetDefault` calls in `Setup`; keys with no default decode to
Go zero values. -/
def viperDefaults : Config :=
  { level := "info"
    consoleFormat := "text"
    elasticsearch :=
      { enabled := false
        url := "http://localhost:9200"
        index := "logs"
        username := ""
        password := ""
        insecureSkipVerify := false
        retries := 1
        queueSize := 0
        batchSize := 0
        flushInterval := "" } }

/-- A layer of configuration values (from a file or the environment):
`none` means the layer does not set the key. -/
structure ConfigOverlay where
  level : Option String := none
  consoleFormat : Option String := none
  esEnabled : Option Bool := none
  esUrl : Option String := none
  esIndex : Option String := none
  esUsername : Option String := none
  esPassword : Option String := none
  esInsecureSkipVerify : Option Bool := none
  esRetries : Option Int := none
  esQueueSize : Option Int := none
  esBatchSize : Option Int := none
  esFlushInterval : Option String := none
  deriving DecidableEq, Repr

/-- Viper layering: a value set in the overlay shadows the layer
below. -/
def applyOverlay (o : ConfigOverlay) (c : Config) : Config :=
  { level := o.level.getD c.level
    consoleFormat := o.consoleFormat.getD c.consoleFormat
    elasticsearch :=
      { enabled := o.esEnabled.getD c.elasticsearch.enabled
        url := o.esUrl.getD c.elasticsearch.url
        index := o.esIndex.getD c.elasticsearch.index
        username := o.esUsername.getD c.elasticsearch.username
        password := o.esPassword.getD c.elasticsearch.password
        insecureSkipVerify := o.esInsecureSkipVerify.getD c.elasticsearch.insecureSkipVerify
        retries := o.esRetries.getD c.elasticsearch.retries
        queueSize := o.esQueueSize.getD c.elasticsearch.queueSize
        batchSize := o.esBatchSize.getD c.elasticsearch.batchSize
        flushInterval := o.esFlushInterval.getD c.elasticsearch.flushInterval } }

/-- Render an absolute directory (list of components from the root) the
way `filepath` prints it. -/
def dirString (dir : List String) : String :=
  if dir.isEmpty then "/" else "/" ++ String.intercalate "/" dir

/-- `filepath.Join(dir, name)`. -/
def joinPath (dir : List String) (name : String) : String :=
  if dir.isEmpty then "/" ++ name
  else "/" ++ String.intercalate "/" dir ++ "/" ++ name

/-- `filepath.Dir`: drop the last component. -/
def dirParent (dir : List String) : List String := dir.dropLast

/-- The fallback file names probed in each ancestor directory, in
source order. -/
def fallbackCandidates (dir : List String) : List String :=
  [joinPath dir "logger.example.yaml", joinPath dir "logger.yaml",
   joinPath dir "logger.yml"]

/-- The ancestor-directory fallback: up to 6 levels, stopping at `.` or
the filesystem root; in each directory the first candidate that exists
(`os.Stat`) and parses (`ReadInConfig`) wins. -/
def searchAncestors (statOk readOk : String → Bool) : Nat → List String → Option String
  | 0, _ => none
  | fuel + 1, dir =>
    if dirString dir = "." ∨ dirString dir = "/" then none
    else
      match (fallbackCandidates dir).find? (fun c => statOk c && readOk c) with
      | some c => some c
      | none =>
        if dirString (dirParent dir) = dirString dir then none
        else searchAncestors statOk readOk fuel (dirParent dir)

/-- Everything `Setup` consumes from the outside world: the explicit
path argument, the working directory, and oracles recording what each
external call (viper reads, `os.Stat`, environment binding, decoding,
`elasticsearch.NewClient`) would yield. -/
structure SetupEnv where
  configPath : String
  cwd : List String
  namedSearchOk : Bool
  statOk : String → Bool
  readOk : String → Bool
  namedFileOverlay : ConfigOverlay
  fileOverlay : String → ConfigOverlay
  envOverlay : ConfigOverlay
  decodeOk : Bool
  esClientOk : Bool

/-- Where the configuration was loaded from, when a file was read at
all. -/
inductive ConfigSource where
  | named
  | explicitFile (path : String)
  | fallbackFile (path : String)
  deriving DecidableEq, Repr

/-- Whether the first `ReadInConfig` call succeeds: the `logger`-named
search in `.` when no path was given, otherwise the explicit file. -/
def primaryReadOk (env : SetupEnv) : Bool :=
  if env.configPath = "" then env.namedSearchOk else env.readOk env.configPath

/-- The ancestor fallback search as `Setup` runs it. -/
def fallbackSearch (env : SetupEnv) : Option String :=
  searchAncestors env.statOk env.readOk 6 env.cwd

/-- The configuration file `Setup` ends up having read, if any: the
primary source when its read succeeds, otherwise the first successful
fallback candidate. -/
def loadedSource (env : SetupEnv) : Option ConfigSource :=
  if env.configPath = "" then
    if env.namedSearchOk then some .named
    else (fallbackSearch env).map .fallbackFile
  else
    if env.readOk env.configPath then some (.explicitFile env.configPath)
    else (fallbackSearch env).map .fallbackFile

/-- The file layer of the resolved configuration. -/
def fileOverlayOf (env : SetupEnv) : ConfigOverlay :=
  match loadedSource env with
  | none => {}
  | some .named => env.namedFileOverlay
  | some (.explicitFile p) => env.fileOverlay p
  | some (.fallbackFile p) => env.fileOverlay p

/-- The typed configuration `v.Unmarshal` produces: defaults, shadowed
by the file layer, shadowed by environment bindings. -/
def resolvedConfig (env : SetupEnv) : Config :=
  applyOverlay env.envOverlay (applyOverlay (fileOverlayOf env) viperDefaults)

/-- Stderr warnings `Setup` can emit. -/
inductive SetupWarning where
  | noConfigFile
  | esClientFailed
  deriving DecidableEq, Repr

/-- The logrus formatter chosen for console output. -/
inductive Formatter where
  | jsonFormatter (timestampFormat : String)
  | textFormatter (fullTimestamp : Bool) (timestampFormat : String)
  deriving DecidableEq, Repr

/-- Go's `time.RFC3339` layout string. -/
def timeRFC3339 : String := "2006-01-02T15:04:05Z07:00"

/-- The configured logger `Setup` builds. -/
structure LoggerState where
  formatter : Formatter
  level : Level
  outputStdout : Bool
  hook : Option ESHook
  deriving DecidableEq, Repr

/-- What a `Setup` call produces: its return value and the stderr
warnings written along the way. -/
structure SetupOutcome where
  result : Except String LoggerState
  warnings : List SetupWarning

/-- `Setup`: read configuration (warning, not error, when no file is
found anywhere), decode it (the only fatal condition), pick formatter
and level (unparseable level falls back to info), write to stdout, and
attach the Elasticsearch hook when enabled and the client could be
constructed (a construction failure is only a warning). -/
def Setup (env : SetupEnv) : SetupOutcome :=
  let configWarnings :=
    if !primaryReadOk env && (fallbackSearch env).isNone then
      [SetupWarning.noConfigFile]
    else []
  if env.decodeOk = false then
    { result := .error "failed to decode logger config", warnings := configWarnings }
  else
    let cfg := resolvedConfig env
    let formatter :=
      if cfg.consoleFormat = "json" then Formatter.jsonFormatter timeRFC3339
      else Formatter.textFormatter true timeRFC3339
    let level := (ParseLevel cfg.level).getD Level.infoLevel
    let hookAndWarns : Option ESHook × List SetupWarning :=
      if cfg.elasticsearch.enabled then
        if env.esClientOk then
          (some { index := cfg.elasticsearch.index, retries := cfg.elasticsearch.retries },
           [])
        else (none, [SetupWarning.esClientFailed])
      else (none, [])
    { result := .ok
        { formatter := formatter, level := level, outputStdout := true,
          hook := hookAndWarns.1 }
      warnings := configWarnings ++ hookAndWarns.2 }

/-- Did `Setup` return nil? -/
def SetupOutcome.succeeded (o : SetupOutcome) : Bool :=
  match o.result with
  | .ok _ => true
  | .error _ => false

/-- Whether a delivery hook ended up attached to the logger. -/
def SetupOutcome.hookAttached (o : SetupOutcome) : Bool :=
  match o.result with
  | .ok s => s.hook.isSome
  | .error _ => false

/-- The configured level, when `Setup` succeeded. -/
def SetupOutcome.stateLevel (o : SetupOutcome) : Option Level :=
  match o.result with
  | .ok s => some s.level
  | .error _ => none

/-- The observable delivery actions of one log record under the logger
`Setup` built: the attached hook's `Fire` trace, or nothing when no
hook is attached. -/
def deliveredEvents (o : SetupOutcome) (entry : Entry) (b : SinkBehavior) :
    List FireEvent :=
  match o.result with
  | .ok s =>
    match s.hook with
    | some h => (h.Fire entry b).events
    | none => []
  | .error _ => []

/-- Claim C4 (amended): after `Setup` completes, the delivery hook is
attached if and only if `elasticsearch.enabled` was true at setup time
AND the remote-sink client was constructed successfully; in particular,
with `enabled = false` no hook is attached and no outbound request can
occur for any log record. -/
theorem hook_attached_iff_enabled_and_client (env : SetupEnv)
    (hdec : env.decodeOk = true) :
    (Setup env).hookAttached =
      ((resolvedConfig env).elasticsearch.enabled && env.esClientOk) ∧
    ((resolvedConfig env).elasticsearch.enabled = false →
      (Setup env).hookAttached = false ∧
      ∀ entry b, deliveredEvents (Setup env) entry b = []) := by
  cases hen : (resolvedConfig env).elasticsearch.enabled <;>
    cases hcl : env.esClientOk <;>
      simp [Setup, SetupOutcome.hookAttached, deliveredEvents, hdec, hen, hcl]

def c4env : SetupEnv :=
  { configPath := "", cwd := ["app"], namedSearchOk := false,
    statOk := fun _ => false, readOk := fun _ => false,
    namedFileOverlay := {}, fileOverlay := fun _ => {},
    envOverlay := { esEnabled := some true, esUrl := some "http://bad host:9200" },
    decodeOk := true, esClientOk := false }

/-- Claim C4 counterexample: `elasticsearch.enabled` is true at setup
time (set via the environment), yet no hook is attached because the
client could not be constructed for the malformed URL — so "attached
iff enabled" fails in the forward direction. -/
theorem hook_iff_enabled_counterexample :
    (resolvedConfig c4env).elasticsearch.enabled = true ∧
    (Setup c4env).hookAttached = false := by
  refine ⟨by decide, by decide⟩

/-- Witness for the amended C4 at a concrete environment. -/
theorem hook_attached_iff_witness :
    (Setup c4env).hookAttached =
      ((resolvedConfig c4env).elasticsearch.enabled && c4env.esClientOk) :=
  (hook_attached_iff_enabled_and_client c4env rfl).1

/-- Claim C5: when `elasticsearch.enabled` is true but the remote-sink
client cannot be constructed, `Setup` still succeeds: a warning is
written, no hook is attached, and the console logger is fully
configured (formatter, level, stdout). -/
theorem es_client_failure_nonfatal (env : SetupEnv)
    (hdec : env.decodeOk = true)
    (hen : (resolvedConfig env).elasticsearch.enabled = true)
    (hcl : env.esClientOk = false) :
    (Setup env).succeeded = true ∧
    SetupWarning.esClientFailed ∈ (Setup env).warnings ∧
    (Setup env).result = .ok
      { formatter :=
          if (resolvedConfig env).consoleFormat = "json" then
            Formatter.jsonFormatter timeRFC3339
          else Formatter.textFormatter true timeRFC3339
        level := (ParseLevel (resolvedConfig env).level).getD Level.infoLevel
        outputStdout := true
        hook := none } := by
  unfold Setup SetupOutcome.succeeded
  simp [hdec, hen, hcl]

def c5env : SetupEnv :=
  { configPath := "", cwd := ["app"], namedSearchOk := false,
    statOk := fun _ => false, readOk := fun _ => false,
    namedFileOverlay := {}, fileOverlay := fun _ => {},
    envOverlay := { esEnabled := some true }, decodeOk := true, esClientOk := false }

/-- Witness for C5 at a concrete environment. -/
theorem es_client_failure_nonfatal_witness :
    (Setup c5env).succeeded = true ∧
    SetupWarning.esClientFailed ∈ (Setup c5env).warnings ∧
    (Setup c5env).result = .ok
      { formatter :=
          if (resolvedConfig c5env).consoleFormat = "json" then
            Formatter.jsonFormatter timeRFC3339
          else Formatter.textFormatter true timeRFC3339
        level := (ParseLevel (resolvedConfig c5env).level).getD Level.infoLevel
        outputStdout := true
        hook := none } :=
  es_client_failure_nonfatal c5env rfl (by decide) rfl

/-- Claim C7: whenever the resolved configuration's `level` string does
not parse as a severity (the empty string included), the logger's level
is info. -/
theorem unparseable_level_resolves_info (env : SetupEnv)
    (hdec : env.decodeOk = true)
    (hlvl : ParseLevel (resolvedConfig env).level = none) :
    (Setup env).stateLevel = some Level.infoLevel := by
  unfold Setup SetupOutcome.stateLevel
  simp [hdec, hlvl]

def c7env : SetupEnv :=
  { configPath := "", cwd := ["app"], namedSearchOk := false,
    statOk := fun _ => false, readOk := fun _ => false,
    namedFileOverlay := {}, fileOverlay := fun _ => {},
    envOverlay := { level := some "" }, decodeOk := true, esClientOk := true }

/-- Witness for C7: an empty `level` string resolves to info. -/
theorem unparseable_level_resolves_info_witness :
    ParseLevel (resolvedConfig c7env).level = none ∧
    (Setup c7env).stateLevel = some Level.infoLevel :=
  ⟨by decide, unparseable_level_resolves_info c7env rfl (by decide)⟩

/-- Claim C8: with no explicit path and no configuration file found by
the named search or anywhere in the ancestor fallback search, `Setup`
still succeeds: the no-config-file warning is written and the logger is
built from defaults and environment values alone. -/
theorem missing_config_nonfatal (env : SetupEnv)
    (hpath : env.configPath = "")
    (hnamed : env.namedSearchOk = false)
    (hsearch : fallbackSearch env = none)
    (hdec : env.decodeOk = true) :
    (Setup env).succeeded = true ∧
    SetupWarning.noConfigFile ∈ (Setup env).warnings ∧
    resolvedConfig env = applyOverlay env.envOverlay viperDefaults := by
  have hfile : fileOverlayOf env = {} := by
    unfold fileOverlayOf loadedSource
    simp [hpath, hnamed, hsearch]
  have hprim : primaryReadOk env = false := by
    unfold primaryReadOk
    simp [hpath, hnamed]
  refine ⟨?_, ?_, ?_⟩
  · unfold Setup SetupOutcome.succeeded
    simp [hdec, hprim, hsearch]
  · unfold Setup
    simp [hdec, hprim, hsearch]
  · unfold resolvedConfig
    rw [hfile]
    rfl

def c8env : SetupEnv :=
  { configPath := "", cwd := ["home", "user"], namedSearchOk := false,
    statOk := fun _ => false, readOk := fun _ => false,
    namedFileOverlay := {}, fileOverlay := fun _ => {},
    envOverlay := { esRetries := some 4 }, decodeOk := true, esClientOk := true }

/-- Witness for C8 at a concrete environment with an env-only value. -/
theorem missing_config_nonfatal_witness :
    fallbackSearch c8env = none ∧
    ((Setup c8env).succeeded = true ∧
     SetupWarning.noConfigFile ∈ (Setup c8env).warnings ∧
     resolvedConfig c8env = applyOverlay c8env.envOverlay viperDefaults) :=
  ⟨by decide, missing_config_nonfatal c8env rfl rfl (by decide) rfl⟩

def c9env : SetupEnv :=
  { configPath := "/etc/app/logger.yaml", cwd := ["home"],
    namedSearchOk := false,
    statOk := fun p => p == "/home/logger.yaml",
    readOk := fun p => p == "/home/logger.yaml",
    namedFileOverlay := {},
    fileOverlay := fun p =>
      if p == "/home/logger.yaml" then { level := some "debug" } else {},
    envOverlay := {}, decodeOk := true, esClientOk := true }

/-- Claim C9 counterexample: an explicit path is given, its read fails,
and `Setup` then consults and loads the ancestor fallback candidate
`/home/logger.yaml`, whose values enter the resolved configuration —
refuting "no other candidate file is consulted, whether or not the
explicit file exists and parses". -/
theorem explicit_path_strict_counterexample :
    c9env.configPath ≠ "" ∧
    loadedSource c9env = some (.fallbackFile "/home/logger.yaml") ∧
    (resolvedConfig c9env).level = "debug" := by
  refine ⟨by decide, by decide, by decide⟩

/-- Claim C9 (amended): with an explicit path whose read succeeds,
configuration is loaded strictly from that file and no fallback
candidate is consulted; if reading the explicit file fails, the
ancestor fallback search is still consulted and its result (if any)
becomes the configuration file. -/
theorem explicit_path_loading (env : SetupEnv) (hpath : env.configPath ≠ "") :
    (env.readOk env.configPath = true →
      loadedSource env = some (.explicitFile env.configPath)) ∧
    (env.readOk env.configPath = false →
      loadedSource env = (fallbackSearch env).map ConfigSource.fallbackFile) := by
  unfold loadedSource
  constructor <;> intro hr <;> simp [hpath, hr]

/-- Witness for the amended C9 at a concrete environment. -/
theorem explicit_path_loading_witness :
    loadedSource c9env = (fallbackSearch c9env).map ConfigSource.fallbackFile :=
  (explicit_path_loading c9env (by decide)).2 (by decide)

end Hydra
